import Mathlib

/-!
Verification of the legacy uImage (boot.scr) codec.

Shallow embedding of the codec in `src/unnamed/part_001` of the
vscode-bootscr-editor repository: the CRC32 engine, the container parser
`parseLegacyUImage` and the container builder `buildLegacyScriptImage`.

Modelling conventions:
- A byte buffer (`Uint8Array`) is a `List Nat` whose elements are < 256;
  the predicate `IsBytes` captures the byte bound where a theorem
  quantifies over arbitrary buffers.
- Strings are represented by their encodings as byte lists.  The
  `TextEncoder`/`TextDecoder` UTF-8 pair is the identity on such lists,
  so `scriptText` values are compared as byte lists.  `decodeName`
  additionally cuts at the first NUL and trims: the byte set trimmed by
  the JavaScript `String.prototype.trim` on a windows-1252-decoded byte
  is exactly {9, 10, 11, 12, 13, 32, 160}, captured by `isJsSpace`.
- `Date.now()/1000` (whole seconds) is passed explicitly as the `now`
  argument of the builder.
- The `window.showWarningMessage` side effect of the parser is modelled
  by a warning counter returned next to the parse result.
- JavaScript 32-bit arithmetic (`>>> 0`, `& 0xff`, ...) is translated to
  `Nat` operations with the masks the source applies; all intermediate
  values stay below 2^32 exactly as the `>>> 0` coercions guarantee.
-/

namespace BootScr

abbrev Bytes := List Nat

/-- A list models a `Uint8Array` only when every element is a byte. -/
def IsBytes (l : Bytes) : Prop := ∀ b ∈ l, b < 256

instance : DecidablePred IsBytes := fun l =>
  inferInstanceAs (Decidable (∀ b ∈ l, b < 256))

def UIMAGE_MAGIC : Nat := 0x27051956
def HEADER_SIZE : Nat := 64
def TYPE_SCRIPT : Nat := 6
def COMP_NONE : Nat := 0

/-- Source `readU32BE`: big-endian u32 read; out-of-range indices read
as 0 exactly as the JavaScript expression evaluates them. -/
def readU32BE (buf : Bytes) (off : Nat) : Nat :=
  (buf.getD off 0) <<< 24 ||| (buf.getD (off + 1) 0) <<< 16 |||
    (buf.getD (off + 2) 0) <<< 8 ||| buf.getD (off + 3) 0

/-- The four bytes `writeU32BE` stores for a value. -/
def u32be (v : Nat) : Bytes :=
  [(v >>> 24) &&& 0xff, (v >>> 16) &&& 0xff, (v >>> 8) &&& 0xff, v &&& 0xff]

/-- Source `writeU32BE buf off val` as a pure buffer update. -/
def writeU32BE (buf : Bytes) (off : Nat) (val : Nat) : Bytes :=
  buf.take off ++ u32be val ++ buf.drop (off + 4)

/-- Byte values trimmed by JavaScript `trim` after the parser's ASCII
(windows-1252) decode: TAB, LF, VT, FF, CR, SP, NBSP. -/
def isJsSpace (b : Nat) : Bool :=
  b == 9 || b == 10 || b == 11 || b == 12 || b == 13 || b == 32 || b == 160

/-- `String.prototype.trim` on a byte list. -/
def trimBytes (l : Bytes) : Bytes :=
  ((l.dropWhile isJsSpace).reverse.dropWhile isJsSpace).reverse

/-- Source `decodeName`: cut at the first NUL (or take all when no NUL
occurs), decode, trim. -/
def decodeName (bytes : Bytes) : Bytes :=
  trimBytes (bytes.takeWhile (fun b => b ≠ 0))

/-- Source `encodeName`: a 32-byte zero buffer overwritten from offset 0
with the first 32 bytes of the encoded name. -/
def encodeName (name : Bytes) : Bytes :=
  let raw := name.take 32
  raw ++ List.replicate (32 - raw.length) 0

/-- One step of the CRC32 table generator loop (`k` loop body). -/
def crcTableStep (c : Nat) : Nat :=
  if c &&& 1 = 1 then 0xedb88320 ^^^ (c >>> 1) else c >>> 1

/-- Source `CRC32_TABLE`: entry `i` is `i` pushed through eight
generator steps. -/
def CRC32_TABLE (i : Nat) : Nat := crcTableStep^[8] i

/-- The body of the `crc32` byte loop. -/
def crc32Update (c d : Nat) : Nat :=
  CRC32_TABLE ((c ^^^ d) &&& 0xff) ^^^ (c >>> 8)

/-- Default seed of `crc32` in the source. -/
def CRC_SEED : Nat := 0xffffffff

/-- Source `crc32 (data, seed = 0xffffffff)`. -/
def crc32 (data : Bytes) (seed : Nat) : Nat :=
  (data.foldl crc32Update (seed % 2 ^ 32)) ^^^ 0xffffffff

/-- Source `UImageHeader` record. -/
structure UImageHeader where
  magic : Nat
  hcrc : Nat
  timestamp : Nat
  size : Nat
  loadAddr : Nat
  entryPoint : Nat
  dcrc : Nat
  os : Nat
  arch : Nat
  type : Nat
  comp : Nat
  name : Bytes
deriving Repr, DecidableEq

/-- Structural failure classification of the parser (the four `throw`
sites of `parseLegacyUImage`, in source order). -/
inductive ParseError where
  | tooSmall
  | badMagic
  | payloadOverrun
  | missingWrapper
deriving Repr, DecidableEq

instance {ε α : Type} [DecidableEq ε] [DecidableEq α] : DecidableEq (Except ε α) := fun a b =>
  match a, b with
  | Except.ok x, Except.ok y => decidable_of_iff (x = y) (by simp)
  | Except.error x, Except.error y => decidable_of_iff (x = y) (by simp)
  | Except.ok _, Except.error _ => isFalse (by simp)
  | Except.error _, Except.ok _ => isFalse (by simp)

/-- Source `parseLegacyUImage`.  The second component counts the
`window.showWarningMessage` calls the run performs (0 or 1). -/
def parseLegacyUImage (buf : Bytes) :
    Except ParseError (UImageHeader × Bytes) × Nat :=
  if buf.length < HEADER_SIZE then (Except.error ParseError.tooSmall, 0) else
  let magic := readU32BE buf 0
  if magic ≠ UIMAGE_MAGIC then (Except.error ParseError.badMagic, 0) else
  let header : UImageHeader :=
    { magic := magic
      hcrc := readU32BE buf 4
      timestamp := readU32BE buf 8
      size := readU32BE buf 12
      loadAddr := readU32BE buf 16
      entryPoint := readU32BE buf 20
      dcrc := readU32BE buf 24
      os := buf.getD 28 0
      arch := buf.getD 29 0
      type := buf.getD 30 0
      comp := buf.getD 31 0
      name := decodeName ((buf.drop 32).take 32) }
  let payloadStart := HEADER_SIZE
  let payloadEnd := payloadStart + header.size
  if payloadEnd > buf.length then (Except.error ParseError.payloadOverrun, 0) else
  let payload := (buf.drop payloadStart).take header.size
  let calcDcrc := crc32 payload CRC_SEED
  let hdrCopy := writeU32BE (buf.take HEADER_SIZE) 4 0
  let calcHcrc := crc32 hdrCopy CRC_SEED
  let warnings := if calcDcrc ≠ header.dcrc ∨ calcHcrc ≠ header.hcrc then 1 else 0
  if payload.length < 8 then (Except.error ParseError.missingWrapper, warnings) else
  (Except.ok (header, payload.drop 8), warnings)

/-- The fields of `Partial<UImageHeader>` that `buildLegacyScriptImage`
reads (`loadAddr`, `entryPoint`, `os`, `arch`, `type`, `comp`, `name`);
each is optional exactly as in the TypeScript type. -/
structure BaseHeader where
  loadAddr : Option Nat
  entryPoint : Option Nat
  os : Option Nat
  arch : Option Nat
  type : Option Nat
  comp : Option Nat
  name : Option Bytes
deriving Repr, DecidableEq

/-- The argument object of `buildLegacyScriptImage`.  `script` is the
UTF-8 encoding of the script string. -/
structure BuildArgs where
  script : Bytes
  baseHeader : Option BaseHeader
  defaultName : Bytes
  defaultLoadAddr : Nat
  defaultEntryPoint : Nat
deriving Repr, DecidableEq

/-- `args.baseHeader?.loadAddr ?? args.defaultLoadAddr`. -/
def mergedLoadAddr (args : BuildArgs) : Nat :=
  (args.baseHeader.bind BaseHeader.loadAddr).getD args.defaultLoadAddr

/-- `args.baseHeader?.entryPoint ?? args.defaultEntryPoint`. -/
def mergedEntryPoint (args : BuildArgs) : Nat :=
  (args.baseHeader.bind BaseHeader.entryPoint).getD args.defaultEntryPoint

/-- `args.baseHeader?.os ?? 5`. -/
def mergedOs (args : BuildArgs) : Nat := (args.baseHeader.bind BaseHeader.os).getD 5

/-- `args.baseHeader?.arch ?? 2`. -/
def mergedArch (args : BuildArgs) : Nat := (args.baseHeader.bind BaseHeader.arch).getD 2

/-- `args.baseHeader?.type ?? TYPE_SCRIPT`. -/
def mergedType (args : BuildArgs) : Nat :=
  (args.baseHeader.bind BaseHeader.type).getD TYPE_SCRIPT

/-- `args.baseHeader?.comp ?? COMP_NONE`. -/
def mergedComp (args : BuildArgs) : Nat :=
  (args.baseHeader.bind BaseHeader.comp).getD COMP_NONE

/-- `args.baseHeader?.name ?? args.defaultName`. -/
def mergedName (args : BuildArgs) : Bytes :=
  (args.baseHeader.bind BaseHeader.name).getD args.defaultName

/-- The builder's `payload` local: `[u32 len][u32 0][script bytes]`. -/
def buildPayload (args : BuildArgs) : Bytes :=
  u32be args.script.length ++ (u32be 0 ++ args.script)

/-- The builder's `dcrc` local: CRC32 of the payload. -/
def buildDcrc (args : BuildArgs) : Nat := crc32 (buildPayload args) CRC_SEED

/-- The 64-byte header the builder assembles, with the value stored in
the hcrc field (offset 4) as a parameter: the source first writes the
placeholder 0 there, computes the CRC of that buffer, then patches the
CRC in.  All other writes are in source order at their offsets. -/
def buildHeaderBytes (args : BuildArgs) (now : Nat) (hcrcVal : Nat) : Bytes :=
  u32be UIMAGE_MAGIC ++
    (u32be hcrcVal ++
      (u32be now ++
        (u32be (buildPayload args).length ++
          (u32be (mergedLoadAddr args) ++
            (u32be (mergedEntryPoint args) ++
              (u32be (buildDcrc args) ++
                ([mergedOs args &&& 0xff,
                  mergedArch args &&& 0xff,
                  mergedType args &&& 0xff,
                  mergedComp args &&& 0xff] ++
                  encodeName (mergedName args))))))))

/-- The builder's `hcrc` local: CRC32 of the header with 0 in the hcrc
field. -/
def buildHcrc (args : BuildArgs) (now : Nat) : Nat :=
  crc32 (buildHeaderBytes args now 0) CRC_SEED

/-- Source `buildLegacyScriptImage`; `now` is `Math.floor(Date.now()/1000)`. -/
def buildLegacyScriptImage (args : BuildArgs) (now : Nat) : Bytes :=
  buildHeaderBytes args now (buildHcrc args now) ++ buildPayload args

/-- ASCII bytes of the default name literal `"boot script"` used by the
extension and by the spec's default-fallback test. -/
def bootScriptName : Bytes := [98, 111, 111, 116, 32, 115, 99, 114, 105, 112, 116]

/-- A name (as its UTF-8 byte encoding) that survives the 32-byte
NUL-padded ASCII name field unchanged: it fits the field, contains no
NUL, is plain ASCII, and has no whitespace to trim at either end. -/
def ValidName (name : Bytes) : Prop :=
  name.length ≤ 32 ∧ (∀ b ∈ name, b ≠ 0 ∧ b < 128) ∧ trimBytes name = name

instance (name : Bytes) : Decidable (ValidName name) := by
  unfold ValidName
  infer_instance

/-! ### Byte and word arithmetic -/

theorem and_255_eq_mod (x : Nat) : x &&& 255 = x % 256 := by
  have h := Nat.and_pow_two_sub_one_eq_mod x 8
  norm_num at h
  exact h

theorem lor_shift_eq_sum (a b c d : Nat) (ha : a < 256) (hb : b < 256)
    (hc : c < 256) (hd : d < 256) :
    a <<< 24 ||| b <<< 16 ||| c <<< 8 ||| d =
      a * 2 ^ 24 + b * 2 ^ 16 + c * 2 ^ 8 + d := by
  rw [Nat.shiftLeft_eq, Nat.shiftLeft_eq, Nat.shiftLeft_eq, Nat.lor_assoc, Nat.lor_assoc,
      Nat.mul_comm a, Nat.mul_comm b, Nat.mul_comm c,
      ← Nat.mul_add_lt_is_or (show d < 2 ^ 8 by omega) c,
      ← Nat.mul_add_lt_is_or (show 2 ^ 8 * c + d < 2 ^ 16 by omega) b,
      ← Nat.mul_add_lt_is_or (show 2 ^ 16 * b + (2 ^ 8 * c + d) < 2 ^ 24 by omega) a]
  ring

theorem readU32BE_eq_sum (buf : Bytes) (off : Nat)
    (h0 : buf.getD off 0 < 256) (h1 : buf.getD (off + 1) 0 < 256)
    (h2 : buf.getD (off + 2) 0 < 256) (h3 : buf.getD (off + 3) 0 < 256) :
    readU32BE buf off =
      buf.getD off 0 * 2 ^ 24 + buf.getD (off + 1) 0 * 2 ^ 16 +
        buf.getD (off + 2) 0 * 2 ^ 8 + buf.getD (off + 3) 0 := by
  unfold readU32BE
  exact lor_shift_eq_sum _ _ _ _ h0 h1 h2 h3

theorem u32be_eq (v : Nat) :
    u32be v = [v / 2 ^ 24 % 256, v / 2 ^ 16 % 256, v / 2 ^ 8 % 256, v % 256] := by
  simp [u32be, Nat.shiftRight_eq_div_pow, and_255_eq_mod]

theorem u32be_length (v : Nat) : (u32be v).length = 4 := rfl

theorem readU32BE_cons (a b c d : Nat) (rest : Bytes) :
    readU32BE (a :: b :: c :: d :: rest) 0 = a <<< 24 ||| b <<< 16 ||| c <<< 8 ||| d := rfl

theorem readU32BE_u32be (v : Nat) (rest : Bytes) :
    readU32BE (u32be v ++ rest) 0 = v % 2 ^ 32 := by
  rw [u32be_eq]
  show readU32BE (_ :: _ :: _ :: _ :: rest) 0 = _
  rw [readU32BE_cons, lor_shift_eq_sum _ _ _ _ (by omega) (by omega) (by omega) (by omega)]
  omega

theorem readU32BE_append_right (pre l : Bytes) (off : Nat) (h : pre.length ≤ off) :
    readU32BE (pre ++ l) off = readU32BE l (off - pre.length) := by
  unfold readU32BE
  rw [List.getD_append_right _ _ _ _ h, List.getD_append_right _ _ _ _ (by omega),
      List.getD_append_right _ _ _ _ (by omega), List.getD_append_right _ _ _ _ (by omega)]
  have e1 : off + 1 - pre.length = off - pre.length + 1 := by omega
  have e2 : off + 2 - pre.length = off - pre.length + 2 := by omega
  have e3 : off + 3 - pre.length = off - pre.length + 3 := by omega
  rw [e1, e2, e3]

theorem readU32BE_append_left (pre l : Bytes) (off : Nat) (h : off + 4 ≤ pre.length) :
    readU32BE (pre ++ l) off = readU32BE pre off := by
  unfold readU32BE
  rw [List.getD_append _ _ _ _ (by omega), List.getD_append _ _ _ _ (by omega),
      List.getD_append _ _ _ _ (by omega), List.getD_append _ _ _ _ (by omega)]

theorem readU32BE_lt (buf : Bytes) (off : Nat) (hb : IsBytes buf) :
    readU32BE buf off < 2 ^ 32 := by
  have hg : ∀ i, buf.getD i 0 < 256 := by
    intro i
    rcases Nat.lt_or_ge i buf.length with h | h
    · rw [List.getD_eq_getElem _ _ h]
      exact hb _ (List.getElem_mem h)
    · rw [List.getD_eq_default _ _ h]; omega
  rw [readU32BE_eq_sum _ _ (hg _) (hg _) (hg _) (hg _)]
  have := hg off; have := hg (off + 1); have := hg (off + 2); have := hg (off + 3)
  omega

/-! ### Lengths of builder output -/

theorem encodeName_length (name : Bytes) : (encodeName name).length = 32 := by
  simp [encodeName]

theorem buildHeaderBytes_length (args : BuildArgs) (now hv : Nat) :
    (buildHeaderBytes args now hv).length = 64 := by
  simp [buildHeaderBytes, u32be_length, encodeName_length]

theorem buildPayload_length (args : BuildArgs) :
    (buildPayload args).length = 8 + args.script.length := by
  simp [buildPayload, u32be_length]
  omega

theorem buildLegacyScriptImage_length (args : BuildArgs) (now : Nat) :
    (buildLegacyScriptImage args now).length = 72 + args.script.length := by
  simp [buildLegacyScriptImage, buildHeaderBytes_length, buildPayload_length]
  omega

/-! ### CRC32 value bounds -/

set_option maxRecDepth 10000 in
theorem CRC32_TABLE_lt : ∀ i < 256, CRC32_TABLE i < 2 ^ 32 := by decide

theorem crc32Update_lt (c d : Nat) (hc : c < 2 ^ 32) : crc32Update c d < 2 ^ 32 := by
  unfold crc32Update
  have h1 : (c ^^^ d) &&& 255 < 2 ^ 8 := Nat.and_lt_two_pow _ (by norm_num)
  have h2 : CRC32_TABLE ((c ^^^ d) &&& 255) < 2 ^ 32 := CRC32_TABLE_lt _ (by omega)
  have h3 : c >>> 8 < 2 ^ 32 := by
    rw [Nat.shiftRight_eq_div_pow]
    exact lt_of_le_of_lt (Nat.div_le_self _ _) hc
  exact Nat.xor_lt_two_pow h2 h3

theorem foldl_crc32Update_lt (l : Bytes) (c : Nat) (hc : c < 2 ^ 32) :
    List.foldl crc32Update c l < 2 ^ 32 := by
  induction l generalizing c with
  | nil => simpa using hc
  | cons d t ih =>
    rw [List.foldl_cons]
    exact ih _ (crc32Update_lt _ _ hc)

theorem crc32_lt (data : Bytes) (seed : Nat) : crc32 data seed < 2 ^ 32 := by
  unfold crc32
  exact Nat.xor_lt_two_pow
    (foldl_crc32Update_lt _ _ (Nat.mod_lt _ (by norm_num))) (by norm_num)

/-! ### CRC32 linearity over GF(2) and sensitivity to single-byte changes -/

theorem shiftRight_xor_distrib (a b n : Nat) :
    (a ^^^ b) >>> n = a >>> n ^^^ b >>> n := by
  apply Nat.eq_of_testBit_eq
  intro i
  simp [Nat.testBit_shiftRight, Nat.testBit_xor]

theorem xor_xor_cancel (p x y : Nat) : (p ^^^ x) ^^^ (p ^^^ y) = x ^^^ y := by
  rw [Nat.xor_comm p x, Nat.xor_assoc, ← Nat.xor_assoc p p, Nat.xor_self, Nat.zero_xor]

theorem xor_xor_comm4 (a b c d : Nat) :
    (a ^^^ b) ^^^ (c ^^^ d) = (a ^^^ c) ^^^ (b ^^^ d) := by
  apply Nat.eq_of_testBit_eq
  intro i
  simp only [Nat.testBit_xor]
  generalize a.testBit i = w
  generalize b.testBit i = x
  generalize c.testBit i = y
  generalize d.testBit i = z
  revert w x y z
  decide

theorem crcTableStep_linear (a b : Nat) :
    crcTableStep (a ^^^ b) = crcTableStep a ^^^ crcTableStep b := by
  unfold crcTableStep
  have hab : (a ^^^ b) &&& 1 = (a &&& 1) ^^^ (b &&& 1) := Nat.and_xor_distrib_right
  have ha2 : a &&& 1 = 1 ∨ a &&& 1 = 0 := by rw [Nat.and_one_is_mod]; omega
  have hb2 : b &&& 1 = 1 ∨ b &&& 1 = 0 := by rw [Nat.and_one_is_mod]; omega
  rcases ha2 with ha | ha <;> rcases hb2 with hb | hb
  · rw [if_neg (by rw [hab, ha, hb]; decide), if_pos ha, if_pos hb,
        shiftRight_xor_distrib, xor_xor_cancel]
  · rw [if_pos (by rw [hab, ha, hb]; decide), if_pos ha, if_neg (by rw [hb]; decide),
        shiftRight_xor_distrib, Nat.xor_assoc]
  · rw [if_pos (by rw [hab, ha, hb]; decide), if_neg (by rw [ha]; decide), if_pos hb,
        shiftRight_xor_distrib, ← Nat.xor_assoc, Nat.xor_comm 0xedb88320 (a >>> 1),
        Nat.xor_assoc]
  · rw [if_neg (by rw [hab, ha, hb]; decide), if_neg (by rw [ha]; decide),
        if_neg (by rw [hb]; decide), shiftRight_xor_distrib]

theorem crcTableIter_linear (n : Nat) :
    ∀ a b, crcTableStep^[n] (a ^^^ b) = crcTableStep^[n] a ^^^ crcTableStep^[n] b := by
  induction n with
  | zero => intro a b; simp
  | succ n ih =>
    intro a b
    rw [Function.iterate_succ_apply, Function.iterate_succ_apply,
        Function.iterate_succ_apply, crcTableStep_linear, ih]

theorem CRC32_TABLE_linear (a b : Nat) :
    CRC32_TABLE (a ^^^ b) = CRC32_TABLE a ^^^ CRC32_TABLE b :=
  crcTableIter_linear 8 a b

set_option maxRecDepth 10000 in
theorem CRC32_TABLE_high_byte : ∀ i < 256, i ≠ 0 → CRC32_TABLE i >>> 24 ≠ 0 := by decide

theorem CRC32_TABLE_zero : CRC32_TABLE 0 = 0 := by decide

theorem CRC32_TABLE_ne_zero (i : Nat) (h : i < 256) (h0 : i ≠ 0) : CRC32_TABLE i ≠ 0 := by
  intro hz
  exact CRC32_TABLE_high_byte i h h0 (by rw [hz]; rfl)

theorem crc32Update_xor (c1 c2 d : Nat) :
    crc32Update c1 d ^^^ crc32Update c2 d =
      CRC32_TABLE ((c1 ^^^ c2) &&& 255) ^^^ ((c1 ^^^ c2) >>> 8) := by
  unfold crc32Update
  rw [xor_xor_comm4, ← CRC32_TABLE_linear, ← Nat.and_xor_distrib_right,
      show (c1 ^^^ d) ^^^ (c2 ^^^ d) = (c1 ^^^ c2) ^^^ (d ^^^ d) from xor_xor_comm4 c1 d c2 d,
      Nat.xor_self, Nat.xor_zero, ← shiftRight_xor_distrib]

theorem crc32Update_ne (c1 c2 d : Nat) (h : c1 ≠ c2)
    (h1 : c1 < 2 ^ 32) (h2 : c2 < 2 ^ 32) :
    crc32Update c1 d ≠ crc32Update c2 d := by
  intro he
  have hx : CRC32_TABLE ((c1 ^^^ c2) &&& 255) ^^^ ((c1 ^^^ c2) >>> 8) = 0 := by
    rw [← crc32Update_xor c1 c2 d, he, Nat.xor_self]
  have hxne : c1 ^^^ c2 ≠ 0 := fun h0 => h (Nat.xor_eq_zero.mp h0)
  have hxlt : c1 ^^^ c2 < 2 ^ 32 := Nat.xor_lt_two_pow h1 h2
  by_cases hlo : (c1 ^^^ c2) &&& 255 = 0
  · rw [hlo, CRC32_TABLE_zero, Nat.zero_xor, Nat.shiftRight_eq_div_pow] at hx
    rw [and_255_eq_mod] at hlo
    have h8 : (2 : Nat) ^ 8 = 256 := by norm_num
    rw [h8] at hx
    omega
  · have hl256 : (c1 ^^^ c2) &&& 255 < 256 := by
      have := Nat.and_lt_two_pow (c1 ^^^ c2) (show (255 : Nat) < 2 ^ 8 by norm_num)
      omega
    have htop := CRC32_TABLE_high_byte _ hl256 hlo
    apply htop
    have hsr : ((c1 ^^^ c2) >>> 8) >>> 24 = 0 := by
      rw [← Nat.shiftRight_add, Nat.shiftRight_eq_div_pow]
      exact Nat.div_eq_of_lt (by omega)
    have h24 := congrArg (fun t => t >>> 24) hx
    simp only [] at h24
    rw [shiftRight_xor_distrib, hsr, Nat.xor_zero] at h24
    simpa using h24

theorem foldl_crc32Update_ne (l : Bytes) (c1 c2 : Nat) (h : c1 ≠ c2)
    (h1 : c1 < 2 ^ 32) (h2 : c2 < 2 ^ 32) :
    List.foldl crc32Update c1 l ≠ List.foldl crc32Update c2 l := by
  induction l generalizing c1 c2 with
  | nil => simpa using h
  | cons d t ih =>
    rw [List.foldl_cons, List.foldl_cons]
    exact ih _ _ (crc32Update_ne _ _ _ h h1 h2) (crc32Update_lt _ _ h1) (crc32Update_lt _ _ h2)

theorem crc32Update_byte_ne (c d1 d2 : Nat) (h1 : d1 < 256) (h2 : d2 < 256)
    (hne : d1 ≠ d2) : crc32Update c d1 ≠ crc32Update c d2 := by
  intro he
  have hx : crc32Update c d1 ^^^ crc32Update c d2 = 0 := by rw [he, Nat.xor_self]
  unfold crc32Update at hx
  rw [xor_xor_comm4, Nat.xor_self, Nat.xor_zero, ← CRC32_TABLE_linear,
      ← Nat.and_xor_distrib_right,
      show (c ^^^ d1) ^^^ (c ^^^ d2) = d1 ^^^ d2 from xor_xor_cancel c d1 d2] at hx
  have hd : d1 ^^^ d2 < 256 := by
    have := Nat.xor_lt_two_pow (show d1 < 2 ^ 8 by omega) (show d2 < 2 ^ 8 by omega)
    omega
  rw [and_255_eq_mod, Nat.mod_eq_of_lt hd] at hx
  exact CRC32_TABLE_ne_zero _ hd (fun h0 => hne (Nat.xor_eq_zero.mp h0)) hx

theorem crc32_flip_ne (p s : Bytes) (d1 d2 : Nat) (h1 : d1 < 256) (h2 : d2 < 256)
    (hne : d1 ≠ d2) :
    crc32 (p ++ d1 :: s) CRC_SEED ≠ crc32 (p ++ d2 :: s) CRC_SEED := by
  unfold crc32
  intro he
  have hcancel : ∀ x : Nat, (x ^^^ 0xffffffff) ^^^ 0xffffffff = x := fun x =>
    Nat.xor_cancel_right _ _
  have he2 := congrArg (fun t => t ^^^ 0xffffffff) he
  simp only [hcancel] at he2
  rw [List.foldl_append, List.foldl_append, List.foldl_cons, List.foldl_cons] at he2
  have hc : List.foldl crc32Update (CRC_SEED % 2 ^ 32) p < 2 ^ 32 :=
    foldl_crc32Update_lt _ _ (Nat.mod_lt _ (by norm_num))
  exact foldl_crc32Update_ne s _ _
    (crc32Update_byte_ne _ d1 d2 h1 h2 hne)
    (crc32Update_lt _ _ hc) (crc32Update_lt _ _ hc) he2


/-! ### Peeling chunks off a concatenated buffer -/

theorem drop_append_ge (l₁ l₂ : Bytes) (n : Nat) (h : l₁.length ≤ n) :
    (l₁ ++ l₂).drop n = l₂.drop (n - l₁.length) := by
  have e : n = l₁.length + (n - l₁.length) := by omega
  rw [e, ← List.drop_drop, List.drop_left, Nat.add_sub_cancel_left]

theorem readU32BE_peel (x : Nat) (rest : Bytes) (off : Nat) (h : 4 ≤ off) :
    readU32BE (u32be x ++ rest) off = readU32BE rest (off - 4) := by
  have e := readU32BE_append_right (u32be x) rest off (by rw [u32be_length]; omega)
  rwa [u32be_length] at e

theorem getD_peel (x : Nat) (rest : Bytes) (n : Nat) (h : 4 ≤ n) :
    (u32be x ++ rest).getD n 0 = rest.getD (n - 4) 0 := by
  have e := List.getD_append_right (u32be x) rest 0 n (by rw [u32be_length]; omega)
  rwa [u32be_length] at e

theorem drop_peel (x : Nat) (rest : Bytes) (n : Nat) (h : 4 ≤ n) :
    (u32be x ++ rest).drop n = rest.drop (n - 4) := by
  have e := drop_append_ge (u32be x) rest n (by rw [u32be_length]; omega)
  rwa [u32be_length] at e

/-! ### Reading each field back from builder output -/

theorem build_read_magic (args : BuildArgs) (now : Nat) :
    readU32BE (buildLegacyScriptImage args now) 0 = UIMAGE_MAGIC := by
  unfold buildLegacyScriptImage buildHeaderBytes
  simp only [List.append_assoc]
  rw [readU32BE_u32be]
  decide

theorem build_read_hcrc (args : BuildArgs) (now : Nat) :
    readU32BE (buildLegacyScriptImage args now) 4 = buildHcrc args now := by
  unfold buildLegacyScriptImage buildHeaderBytes
  simp only [List.append_assoc]
  rw [readU32BE_peel _ _ _ (by norm_num), show (4 : Nat) - 4 = 0 from rfl, readU32BE_u32be]
  exact Nat.mod_eq_of_lt (crc32_lt _ _)

theorem build_read_timestamp (args : BuildArgs) (now : Nat) :
    readU32BE (buildLegacyScriptImage args now) 8 = now % 2 ^ 32 := by
  unfold buildLegacyScriptImage buildHeaderBytes
  simp only [List.append_assoc]
  rw [readU32BE_peel _ _ _ (by norm_num), show (8 : Nat) - 4 = 4 from rfl,
      readU32BE_peel _ _ _ (by norm_num), show (4 : Nat) - 4 = 0 from rfl, readU32BE_u32be]

theorem build_read_size (args : BuildArgs) (now : Nat) :
    readU32BE (buildLegacyScriptImage args now) 12 = (8 + args.script.length) % 2 ^ 32 := by
  unfold buildLegacyScriptImage buildHeaderBytes
  simp only [List.append_assoc]
  rw [readU32BE_peel _ _ _ (by norm_num), show (12 : Nat) - 4 = 8 from rfl,
      readU32BE_peel _ _ _ (by norm_num), show (8 : Nat) - 4 = 4 from rfl,
      readU32BE_peel _ _ _ (by norm_num), show (4 : Nat) - 4 = 0 from rfl, readU32BE_u32be,
      buildPayload_length]

theorem build_read_loadAddr (args : BuildArgs) (now : Nat) :
    readU32BE (buildLegacyScriptImage args now) 16 = mergedLoadAddr args % 2 ^ 32 := by
  unfold buildLegacyScriptImage buildHeaderBytes
  simp only [List.append_assoc]
  rw [readU32BE_peel _ _ _ (by norm_num), show (16 : Nat) - 4 = 12 from rfl,
      readU32BE_peel _ _ _ (by norm_num), show (12 : Nat) - 4 = 8 from rfl,
      readU32BE_peel _ _ _ (by norm_num), show (8 : Nat) - 4 = 4 from rfl,
      readU32BE_peel _ _ _ (by norm_num), show (4 : Nat) - 4 = 0 from rfl, readU32BE_u32be]

theorem build_read_entryPoint (args : BuildArgs) (now : Nat) :
    readU32BE (buildLegacyScriptImage args now) 20 = mergedEntryPoint args % 2 ^ 32 := by
  unfold buildLegacyScriptImage buildHeaderBytes
  simp only [List.append_assoc]
  rw [readU32BE_peel _ _ _ (by norm_num), show (20 : Nat) - 4 = 16 from rfl,
      readU32BE_peel _ _ _ (by norm_num), show (16 : Nat) - 4 = 12 from rfl,
      readU32BE_peel _ _ _ (by norm_num), show (12 : Nat) - 4 = 8 from rfl,
      readU32BE_peel _ _ _ (by norm_num), show (8 : Nat) - 4 = 4 from rfl,
      readU32BE_peel _ _ _ (by norm_num), show (4 : Nat) - 4 = 0 from rfl, readU32BE_u32be]

theorem build_read_dcrc (args : BuildArgs) (now : Nat) :
    readU32BE (buildLegacyScriptImage args now) 24 = buildDcrc args := by
  unfold buildLegacyScriptImage buildHeaderBytes
  simp only [List.append_assoc]
  rw [readU32BE_peel _ _ _ (by norm_num), show (24 : Nat) - 4 = 20 from rfl,
      readU32BE_peel _ _ _ (by norm_num), show (20 : Nat) - 4 = 16 from rfl,
      readU32BE_peel _ _ _ (by norm_num), show (16 : Nat) - 4 = 12 from rfl,
      readU32BE_peel _ _ _ (by norm_num), show (12 : Nat) - 4 = 8 from rfl,
      readU32BE_peel _ _ _ (by norm_num), show (8 : Nat) - 4 = 4 from rfl,
      readU32BE_peel _ _ _ (by norm_num), show (4 : Nat) - 4 = 0 from rfl, readU32BE_u32be]
  exact Nat.mod_eq_of_lt (crc32_lt _ _)

theorem build_getD_enum (args : BuildArgs) (now : Nat) :
    (buildLegacyScriptImage args now).getD 28 0 = mergedOs args &&& 255 ∧
      (buildLegacyScriptImage args now).getD 29 0 = mergedArch args &&& 255 ∧
      (buildLegacyScriptImage args now).getD 30 0 = mergedType args &&& 255 ∧
      (buildLegacyScriptImage args now).getD 31 0 = mergedComp args &&& 255 := by
  unfold buildLegacyScriptImage buildHeaderBytes
  simp only [List.append_assoc, List.cons_append]
  refine ⟨?_, ?_, ?_, ?_⟩
  · rw [getD_peel _ _ _ (by norm_num), show (28 : Nat) - 4 = 24 from rfl,
        getD_peel _ _ _ (by norm_num), show (24 : Nat) - 4 = 20 from rfl,
        getD_peel _ _ _ (by norm_num), show (20 : Nat) - 4 = 16 from rfl,
        getD_peel _ _ _ (by norm_num), show (16 : Nat) - 4 = 12 from rfl,
        getD_peel _ _ _ (by norm_num), show (12 : Nat) - 4 = 8 from rfl,
        getD_peel _ _ _ (by norm_num), show (8 : Nat) - 4 = 4 from rfl,
        getD_peel _ _ _ (by norm_num), show (4 : Nat) - 4 = 0 from rfl]
    rfl
  · rw [getD_peel _ _ _ (by norm_num), show (29 : Nat) - 4 = 25 from rfl,
        getD_peel _ _ _ (by norm_num), show (25 : Nat) - 4 = 21 from rfl,
        getD_peel _ _ _ (by norm_num), show (21 : Nat) - 4 = 17 from rfl,
        getD_peel _ _ _ (by norm_num), show (17 : Nat) - 4 = 13 from rfl,
        getD_peel _ _ _ (by norm_num), show (13 : Nat) - 4 = 9 from rfl,
        getD_peel _ _ _ (by norm_num), show (9 : Nat) - 4 = 5 from rfl,
        getD_peel _ _ _ (by norm_num), show (5 : Nat) - 4 = 1 from rfl]
    rfl
  · rw [getD_peel _ _ _ (by norm_num), show (30 : Nat) - 4 = 26 from rfl,
        getD_peel _ _ _ (by norm_num), show (26 : Nat) - 4 = 22 from rfl,
        getD_peel _ _ _ (by norm_num), show (22 : Nat) - 4 = 18 from rfl,
        getD_peel _ _ _ (by norm_num), show (18 : Nat) - 4 = 14 from rfl,
        getD_peel _ _ _ (by norm_num), show (14 : Nat) - 4 = 10 from rfl,
        getD_peel _ _ _ (by norm_num), show (10 : Nat) - 4 = 6 from rfl,
        getD_peel _ _ _ (by norm_num), show (6 : Nat) - 4 = 2 from rfl]
    rfl
  · rw [getD_peel _ _ _ (by norm_num), show (31 : Nat) - 4 = 27 from rfl,
        getD_peel _ _ _ (by norm_num), show (27 : Nat) - 4 = 23 from rfl,
        getD_peel _ _ _ (by norm_num), show (23 : Nat) - 4 = 19 from rfl,
        getD_peel _ _ _ (by norm_num), show (19 : Nat) - 4 = 15 from rfl,
        getD_peel _ _ _ (by norm_num), show (15 : Nat) - 4 = 11 from rfl,
        getD_peel _ _ _ (by norm_num), show (11 : Nat) - 4 = 7 from rfl,
        getD_peel _ _ _ (by norm_num), show (7 : Nat) - 4 = 3 from rfl]
    rfl

theorem build_name_field (args : BuildArgs) (now : Nat) :
    ((buildLegacyScriptImage args now).drop 32).take 32 = encodeName (mergedName args) := by
  unfold buildLegacyScriptImage buildHeaderBytes
  simp only [List.append_assoc, List.cons_append]
  rw [drop_peel _ _ _ (by norm_num), show (32 : Nat) - 4 = 28 from rfl,
      drop_peel _ _ _ (by norm_num), show (28 : Nat) - 4 = 24 from rfl,
      drop_peel _ _ _ (by norm_num), show (24 : Nat) - 4 = 20 from rfl,
      drop_peel _ _ _ (by norm_num), show (20 : Nat) - 4 = 16 from rfl,
      drop_peel _ _ _ (by norm_num), show (16 : Nat) - 4 = 12 from rfl,
      drop_peel _ _ _ (by norm_num), show (12 : Nat) - 4 = 8 from rfl,
      drop_peel _ _ _ (by norm_num), show (8 : Nat) - 4 = 4 from rfl]
  simp only [List.drop_succ_cons, List.drop_zero]
  exact List.take_left' (encodeName_length _)

theorem build_drop_64 (args : BuildArgs) (now : Nat) :
    (buildLegacyScriptImage args now).drop 64 = buildPayload args := by
  unfold buildLegacyScriptImage
  exact List.drop_left' (buildHeaderBytes_length args now _)

theorem build_take_64 (args : BuildArgs) (now : Nat) :
    (buildLegacyScriptImage args now).take 64 = buildHeaderBytes args now (buildHcrc args now) := by
  unfold buildLegacyScriptImage
  exact List.take_left' (buildHeaderBytes_length args now _)

theorem zero_hcrc_header (args : BuildArgs) (now hv : Nat) :
    writeU32BE (buildHeaderBytes args now hv) 4 0 = buildHeaderBytes args now 0 := by
  unfold writeU32BE buildHeaderBytes
  rw [List.take_left' (u32be_length _)]
  rw [drop_peel _ _ _ (by norm_num), show (8 : Nat) - 4 = 4 from rfl,
      drop_peel _ _ _ (by norm_num), show (4 : Nat) - 4 = 0 from rfl, List.drop_zero]
  simp only [List.append_assoc]

/-- Parsing a freshly built container: full characterisation.  The only
side condition is that the payload length fits in the 32-bit size field,
which every `Uint8Array` the JavaScript runtime can allocate satisfies. -/
theorem parse_build (args : BuildArgs) (now : Nat)
    (hlen : args.script.length + 8 < 2 ^ 32) :
    parseLegacyUImage (buildLegacyScriptImage args now) =
      (Except.ok
        (({ magic := UIMAGE_MAGIC,
            hcrc := buildHcrc args now,
            timestamp := now % 2 ^ 32,
            size := 8 + args.script.length,
            loadAddr := mergedLoadAddr args % 2 ^ 32,
            entryPoint := mergedEntryPoint args % 2 ^ 32,
            dcrc := buildDcrc args,
            os := mergedOs args &&& 255,
            arch := mergedArch args &&& 255,
            type := mergedType args &&& 255,
            comp := mergedComp args &&& 255,
            name := decodeName (encodeName (mergedName args)) } : UImageHeader),
          args.script), 0) := by
  have h0 := buildLegacyScriptImage_length args now
  have h12 : readU32BE (buildLegacyScriptImage args now) 12 = 8 + args.script.length := by
    rw [build_read_size]
    exact Nat.mod_eq_of_lt (by omega)
  have c1 : ¬ ((buildLegacyScriptImage args now).length < HEADER_SIZE) := by
    rw [h0]; unfold HEADER_SIZE; omega
  have c2 : ¬ (readU32BE (buildLegacyScriptImage args now) 0 ≠ UIMAGE_MAGIC) := by
    rw [build_read_magic]; exact fun h => h rfl
  have c3 : ¬ (HEADER_SIZE + readU32BE (buildLegacyScriptImage args now) 12 >
      (buildLegacyScriptImage args now).length) := by
    rw [h12, h0]; unfold HEADER_SIZE; omega
  have c4 : (buildPayload args).take (8 + args.script.length) = buildPayload args := by
    rw [← buildPayload_length]
    exact List.take_length _
  have c5 : ¬ ((buildPayload args).length < 8) := by
    rw [buildPayload_length]; omega
  have c6 : (buildPayload args).drop 8 = args.script := by
    unfold buildPayload
    rw [drop_peel _ _ _ (by norm_num), show (8 : Nat) - 4 = 4 from rfl,
        drop_peel _ _ _ (by norm_num), show (4 : Nat) - 4 = 0 from rfl, List.drop_zero]
  have henum := build_getD_enum args now
  simp only [parseLegacyUImage, if_neg c1, if_neg c2, if_neg c3, h12, build_read_magic,
    build_read_hcrc, build_read_timestamp, build_read_loadAddr, build_read_entryPoint,
    build_read_dcrc, henum.1, henum.2.1, henum.2.2.1, henum.2.2.2, build_take_64,
    build_drop_64, build_name_field, zero_hcrc_header, HEADER_SIZE, c4, c6, if_neg c5,
    buildDcrc, buildHcrc, ne_eq, not_true_eq_false, false_or, or_false, if_false]
  rw [if_neg (show ¬ (List.length (buildLegacyScriptImage args now) < 64) by
        rw [h0]; omega),
      if_neg (show ¬ (List.length (buildLegacyScriptImage args now) <
          64 + (8 + List.length args.script)) by rw [h0]; omega)]

theorem buildPayload_drop_8 (args : BuildArgs) : (buildPayload args).drop 8 = args.script := by
  unfold buildPayload
  rw [drop_peel _ _ _ (by norm_num), show (8 : Nat) - 4 = 4 from rfl,
      drop_peel _ _ _ (by norm_num), show (4 : Nat) - 4 = 0 from rfl, List.drop_zero]

/-- A name that fits the 32-byte field, has no NUL byte and nothing to
trim decodes back from the name field to itself. -/
theorem decodeName_encodeName (name : Bytes) (hlen : name.length ≤ 32)
    (hnz : ∀ b ∈ name, b ≠ 0) (htrim : trimBytes name = name) :
    decodeName (encodeName name) = name := by
  unfold decodeName encodeName
  rw [List.take_of_length_le hlen,
      List.takeWhile_append_of_pos (by intro a ha; simpa using hnz a ha),
      List.takeWhile_replicate]
  simp [htrim]

set_option maxRecDepth 40000 in
/-- Claim C6: with the default seed 0xFFFFFFFF, `crc32` matches the
canonical IEEE 802.3 reflected CRC-32 on the two known test vectors:
the empty byte sequence gives 0 and the ASCII bytes of "123456789"
give 0xCBF43926. -/
theorem claim_C6_crc_vectors :
    crc32 [] CRC_SEED = 0 ∧
      crc32 [49, 50, 51, 52, 53, 54, 55, 56, 57] CRC_SEED = 0xCBF43926 := by
  constructor
  · decide
  · decide

/-- Claim C7: building with no previous header and the extension's
defaults (name "boot script", load 0, entry 0) stores osType 5,
archType 2, imageType 6, compressionType 0, and a name field that
decodes to "boot script" — for every script and every clock value. -/
theorem claim_C7_default_fallback (script : Bytes) (now : Nat) :
    (buildLegacyScriptImage ⟨script, none, bootScriptName, 0, 0⟩ now).getD 28 0 = 5 ∧
      (buildLegacyScriptImage ⟨script, none, bootScriptName, 0, 0⟩ now).getD 29 0 = 2 ∧
      (buildLegacyScriptImage ⟨script, none, bootScriptName, 0, 0⟩ now).getD 30 0 = 6 ∧
      (buildLegacyScriptImage ⟨script, none, bootScriptName, 0, 0⟩ now).getD 31 0 = 0 ∧
      decodeName (((buildLegacyScriptImage ⟨script, none, bootScriptName, 0, 0⟩ now).drop 32).take 32) =
        bootScriptName := by
  have h := build_getD_enum ⟨script, none, bootScriptName, 0, 0⟩ now
  refine ⟨?_, ?_, ?_, ?_, ?_⟩
  · rw [h.1]; simp [mergedOs]; decide
  · rw [h.2.1]; simp [mergedArch]; decide
  · rw [h.2.2.1]; simp [mergedType]; decide
  · rw [h.2.2.2]; simp [mergedComp]; decide
  · rw [build_name_field]; simp [mergedName]; decide

/-- Claim C9: the built container is 72 + n bytes long where n is the
script byte length, stores dataSize = 8 + n at offset 12, the script
length n at offset 64, zero at offset 68, and the script bytes from
offset 72 on. -/
theorem claim_C9_layout (args : BuildArgs) (now : Nat)
    (h : args.script.length + 8 < 2 ^ 32) :
    (buildLegacyScriptImage args now).length = 72 + args.script.length ∧
      readU32BE (buildLegacyScriptImage args now) 12 = 8 + args.script.length ∧
      readU32BE (buildLegacyScriptImage args now) 64 = args.script.length ∧
      readU32BE (buildLegacyScriptImage args now) 68 = 0 ∧
      (buildLegacyScriptImage args now).drop 72 = args.script := by
  refine ⟨buildLegacyScriptImage_length args now, ?_, ?_, ?_, ?_⟩
  · rw [build_read_size]
    exact Nat.mod_eq_of_lt (by omega)
  · have e := readU32BE_append_right (buildHeaderBytes args now (buildHcrc args now))
      (buildPayload args) 64 (by rw [buildHeaderBytes_length])
    rw [buildHeaderBytes_length] at e
    unfold buildLegacyScriptImage
    rw [e, show (64 : Nat) - 64 = 0 from rfl]
    unfold buildPayload
    rw [readU32BE_u32be]
    exact Nat.mod_eq_of_lt (by omega)
  · have e := readU32BE_append_right (buildHeaderBytes args now (buildHcrc args now))
      (buildPayload args) 68 (by rw [buildHeaderBytes_length]; omega)
    rw [buildHeaderBytes_length] at e
    unfold buildLegacyScriptImage
    rw [e, show (68 : Nat) - 64 = 4 from rfl]
    unfold buildPayload
    rw [readU32BE_peel _ _ _ (by norm_num), show (4 : Nat) - 4 = 0 from rfl, readU32BE_u32be]
    simp
  · have e := drop_append_ge (buildHeaderBytes args now (buildHcrc args now))
      (buildPayload args) 72 (by rw [buildHeaderBytes_length]; omega)
    rw [buildHeaderBytes_length] at e
    unfold buildLegacyScriptImage
    rw [e, show (72 : Nat) - 64 = 8 from rfl, buildPayload_drop_8]

/-- Claim C10: every built container is checksum-valid: the stored
dataCrc at offset 24 is the CRC32 of the payload area (bytes 64..end),
the stored headerCrc at offset 4 is the CRC32 of the 64-byte header
with the headerCrc field zeroed, and parsing a fresh build raises zero
checksum warnings and succeeds. -/
theorem claim_C10_checksum_valid (args : BuildArgs) (now : Nat)
    (h : args.script.length + 8 < 2 ^ 32) :
    readU32BE (buildLegacyScriptImage args now) 24 =
        crc32 ((buildLegacyScriptImage args now).drop 64) CRC_SEED ∧
      readU32BE (buildLegacyScriptImage args now) 4 =
        crc32 (writeU32BE ((buildLegacyScriptImage args now).take 64) 4 0) CRC_SEED ∧
      (parseLegacyUImage (buildLegacyScriptImage args now)).2 = 0 ∧
      (parseLegacyUImage (buildLegacyScriptImage args now)).1.isOk = true := by
  refine ⟨?_, ?_, ?_, ?_⟩
  · rw [build_read_dcrc, build_drop_64]; rfl
  · rw [build_read_hcrc, build_take_64, zero_hcrc_header]; rfl
  · rw [parse_build args now h]
  · rw [parse_build args now h]; rfl

/-- Witness for C9 at a concrete one-byte script. -/
theorem claim_C9_layout_witness :
    (buildLegacyScriptImage ⟨[120], none, bootScriptName, 0, 0⟩ 7).length = 73 ∧
      readU32BE (buildLegacyScriptImage ⟨[120], none, bootScriptName, 0, 0⟩ 7) 64 = 1 := by
  have h := claim_C9_layout ⟨[120], none, bootScriptName, 0, 0⟩ 7 (by decide)
  exact ⟨h.1, h.2.2.1⟩

set_option maxRecDepth 40000 in
/-- Witness for C10 at a concrete one-byte script. -/
theorem claim_C10_checksum_valid_witness :
    (parseLegacyUImage (buildLegacyScriptImage ⟨[120], none, bootScriptName, 0, 0⟩ 7)).2 = 0 := by
  exact (claim_C10_checksum_valid ⟨[120], none, bootScriptName, 0, 0⟩ 7 (by decide)).2.2.1

/-- Claim C2: round-trip.  For every script text (as UTF-8 bytes, with
the payload fitting the 32-bit size field) and every valid header
metadata, parsing the built container succeeds, returns the script text
unchanged, and the decoded loadAddress, entryPoint, osType, archType,
imageType, compressionType and name equal the supplied metadata;
timestamp is not compared. -/
theorem claim_C2_roundtrip (script name dName : Bytes) (la ep os arch ty comp : Nat)
    (dLa dEp now : Nat)
    (hs : script.length + 8 < 2 ^ 32)
    (hla : la < 2 ^ 32) (hep : ep < 2 ^ 32)
    (hos : os < 256) (harch : arch < 256) (hty : ty < 256) (hcomp : comp < 256)
    (hname : ValidName name) :
    ((parseLegacyUImage (buildLegacyScriptImage
        ⟨script, some ⟨some la, some ep, some os, some arch, some ty, some comp, some name⟩,
          dName, dLa, dEp⟩ now)).1.map
      (fun r => (r.2, r.1.loadAddr, r.1.entryPoint, r.1.os, r.1.arch, r.1.type, r.1.comp,
        r.1.name))) =
      Except.ok (script, la, ep, os, arch, ty, comp, name) := by
  rw [parse_build _ now hs]
  have hn : decodeName (encodeName name) = name :=
    decodeName_encodeName name hname.1 (fun b hb => (hname.2.1 b hb).1) hname.2.2
  simp only [Except.map, mergedLoadAddr, mergedEntryPoint, mergedOs, mergedArch,
    mergedType, mergedComp, mergedName, Option.some_bind, Option.getD_some, hn,
    and_255_eq_mod]
  rw [Nat.mod_eq_of_lt hla, Nat.mod_eq_of_lt hep, Nat.mod_eq_of_lt (by omega : os < 256),
      Nat.mod_eq_of_lt (by omega : arch < 256), Nat.mod_eq_of_lt (by omega : ty < 256),
      Nat.mod_eq_of_lt (by omega : comp < 256)]

/-- Witness for C2 at a concrete script "echo" and a concrete header. -/
theorem claim_C2_roundtrip_witness :
    ((parseLegacyUImage (buildLegacyScriptImage
        ⟨[101, 99, 104, 111],
          some ⟨some 66048, some 66049, some 5, some 2, some 6, some 0, some [97, 98, 99]⟩,
          bootScriptName, 0, 0⟩ 1700000000)).1.map
      (fun r => (r.2, r.1.loadAddr, r.1.entryPoint, r.1.os, r.1.arch, r.1.type, r.1.comp,
        r.1.name))) =
      Except.ok ([101, 99, 104, 111], 66048, 66049, 5, 2, 6, 0, [97, 98, 99]) :=
  claim_C2_roundtrip [101, 99, 104, 111] [97, 98, 99] bootScriptName 66048 66049 5 2 6 0
    0 0 1700000000 (by decide) (by decide) (by decide) (by decide) (by decide) (by decide)
    (by decide) (by decide)

/-- Claim C3: the parser fails exactly on the four structural
conditions, classified with the source's priority order (TooSmall, then
BadMagic, then PayloadOverrun, then MissingWrapper), and succeeds on
every other buffer — in particular a checksum mismatch alone never
makes it fail, since the success condition mentions no CRC. -/
theorem claim_C3_structural_errors (buf : Bytes) :
    ((parseLegacyUImage buf).1 = Except.error ParseError.tooSmall ↔ buf.length < 64) ∧
      ((parseLegacyUImage buf).1 = Except.error ParseError.badMagic ↔
        64 ≤ buf.length ∧ readU32BE buf 0 ≠ UIMAGE_MAGIC) ∧
      ((parseLegacyUImage buf).1 = Except.error ParseError.payloadOverrun ↔
        64 ≤ buf.length ∧ readU32BE buf 0 = UIMAGE_MAGIC ∧
          buf.length < 64 + readU32BE buf 12) ∧
      ((parseLegacyUImage buf).1 = Except.error ParseError.missingWrapper ↔
        64 ≤ buf.length ∧ readU32BE buf 0 = UIMAGE_MAGIC ∧
          64 + readU32BE buf 12 ≤ buf.length ∧ readU32BE buf 12 < 8) ∧
      ((parseLegacyUImage buf).1.isOk = true ↔
        64 ≤ buf.length ∧ readU32BE buf 0 = UIMAGE_MAGIC ∧
          64 + readU32BE buf 12 ≤ buf.length ∧ 8 ≤ readU32BE buf 12) := by
  by_cases h1 : buf.length < 64
  · have hp : parseLegacyUImage buf = (Except.error ParseError.tooSmall, 0) := by
      unfold parseLegacyUImage
      rw [if_pos (show buf.length < HEADER_SIZE from h1)]
    rw [hp]
    refine ⟨by simpa using h1, ?_, ?_, ?_, ?_⟩ <;>
      simp [Except.isOk, Except.toBool, show ¬ (64 ≤ buf.length) from by omega]
  · rcases ne_or_eq (readU32BE buf 0) UIMAGE_MAGIC with h2 | h2
    · have hp : parseLegacyUImage buf = (Except.error ParseError.badMagic, 0) := by
        simp only [parseLegacyUImage, HEADER_SIZE]
        rw [if_neg h1, if_pos h2]
      rw [hp]
      refine ⟨by simpa using h1, ?_, ?_, ?_, ?_⟩ <;>
        simp [Except.isOk, Except.toBool, h2, show (64 : Nat) ≤ buf.length from by omega]
    · by_cases h3 : buf.length < 64 + readU32BE buf 12
      · have hp : parseLegacyUImage buf = (Except.error ParseError.payloadOverrun, 0) := by
          simp only [parseLegacyUImage, HEADER_SIZE]
          rw [if_neg h1, if_neg (show ¬ (readU32BE buf 0 ≠ UIMAGE_MAGIC) from fun hx => hx h2),
              if_pos (show 64 + readU32BE buf 12 > buf.length from h3)]
        rw [hp]
        refine ⟨by simpa using h1, ?_, ?_, ?_, ?_⟩ <;>
          simp [Except.isOk, Except.toBool, h2, show (64 : Nat) ≤ buf.length from by omega] <;>
          omega
      · have hplen : ((buf.drop 64).take (readU32BE buf 12)).length = readU32BE buf 12 := by
          simp
          omega
        by_cases h4 : readU32BE buf 12 < 8
        · have hp : (parseLegacyUImage buf).1 = Except.error ParseError.missingWrapper := by
            simp only [parseLegacyUImage, HEADER_SIZE]
            rw [if_neg h1, if_neg (show ¬ (readU32BE buf 0 ≠ UIMAGE_MAGIC) from fun hx => hx h2),
                if_neg (show ¬ (64 + readU32BE buf 12 > buf.length) from h3), hplen,
                if_pos h4]
          rw [hp]
          refine ⟨?_, ?_, ?_, ?_, ?_⟩ <;>
            simp [Except.isOk, Except.toBool, h2, show (64 : Nat) ≤ buf.length from by omega] <;>
            omega
        · have hp : (parseLegacyUImage buf).1.isOk = true := by
            simp only [parseLegacyUImage, HEADER_SIZE]
            rw [if_neg h1, if_neg (show ¬ (readU32BE buf 0 ≠ UIMAGE_MAGIC) from fun hx => hx h2),
                if_neg (show ¬ (64 + readU32BE buf 12 > buf.length) from h3), hplen,
                if_neg h4]
            rfl
          have hne : ∀ e : ParseError, ¬ ((parseLegacyUImage buf).1 = Except.error e) := by
            intro e hx
            rw [hx] at hp
            simp [Except.isOk, Except.toBool] at hp
          refine ⟨?_, ?_, ?_, ?_, ?_⟩ <;>
            simp [hp, hne _, h2, show (64 : Nat) ≤ buf.length from by omega] <;>
            omega

set_option maxRecDepth 8000 in
/-- Counterexample to claim C1 as stated: building the empty script with
default metadata at clock values 0 and 1 yields containers whose
headerCrc fields (the big-endian u32 spanning offsets 4-7) differ — the
header CRC covers the timestamp, so it changes with the clock.  The two
builds differ only in the observed clock value. -/
theorem claim_C1_counterexample :
    readU32BE (buildLegacyScriptImage ⟨[], none, bootScriptName, 0, 0⟩ 0) 4 ≠
      readU32BE (buildLegacyScriptImage ⟨[], none, bootScriptName, 0, 0⟩ 1) 4 := by
  rw [build_read_hcrc, build_read_hcrc]
  unfold buildHcrc
  rw [show buildHeaderBytes ⟨[], none, bootScriptName, 0, 0⟩ 0 0 =
        [39, 5, 25, 86, 0, 0, 0, 0, 0, 0, 0] ++ (0 : Nat) ::
          [0, 0, 0, 8, 0, 0, 0, 0, 0, 0, 0, 0, 101, 34, 223, 105, 5, 2, 6, 0, 98, 111, 111, 116, 32, 115, 99, 114, 105, 112, 116, 0, 0, 0, 0, 0, 0, 0, 0, 0, 0, 0, 0, 0, 0, 0, 0, 0, 0, 0, 0, 0] from by decide,
      show buildHeaderBytes ⟨[], none, bootScriptName, 0, 0⟩ 1 0 =
        [39, 5, 25, 86, 0, 0, 0, 0, 0, 0, 0] ++ (1 : Nat) ::
          [0, 0, 0, 8, 0, 0, 0, 0, 0, 0, 0, 0, 101, 34, 223, 105, 5, 2, 6, 0, 98, 111, 111, 116, 32, 115, 99, 114, 105, 112, 116, 0, 0, 0, 0, 0, 0, 0, 0, 0, 0, 0, 0, 0, 0, 0, 0, 0, 0, 0, 0, 0] from by decide]
  exact crc32_flip_ne _ _ 0 1 (by norm_num) (by norm_num) (by norm_num)

/-- Claim C1 as amended: two builds with identical inputs agree on
every byte outside offsets 4-11 — the timestamp field (8-11) and the
headerCrc field (4-7), which is recomputed over a header that includes
the timestamp, may differ; with equal clock values the outputs are
byte-identical. -/
theorem claim_C1_amended (args : BuildArgs) (t1 t2 i : Nat) (h : i < 4 ∨ 12 ≤ i) :
    (buildLegacyScriptImage args t1).length = (buildLegacyScriptImage args t2).length ∧
      (buildLegacyScriptImage args t1).getD i 0 = (buildLegacyScriptImage args t2).getD i 0 ∧
      (t1 = t2 → buildLegacyScriptImage args t1 = buildLegacyScriptImage args t2) := by
  have hd : ∀ t, buildLegacyScriptImage args t =
      u32be UIMAGE_MAGIC ++
        (u32be (buildHcrc args t) ++
          (u32be t ++
            (u32be (buildPayload args).length ++
              (u32be (mergedLoadAddr args) ++
                (u32be (mergedEntryPoint args) ++
                  (u32be (buildDcrc args) ++
                    ([mergedOs args &&& 255, mergedArch args &&& 255,
                      mergedType args &&& 255, mergedComp args &&& 255] ++
                      (encodeName (mergedName args) ++ buildPayload args)))))))) := by
    intro t
    unfold buildLegacyScriptImage buildHeaderBytes
    simp only [List.append_assoc]
  refine ⟨by rw [buildLegacyScriptImage_length, buildLegacyScriptImage_length], ?_,
    fun he => by rw [he]⟩
  rw [hd t1, hd t2]
  rcases h with h | h
  · rw [List.getD_append _ _ _ _ (show i < (u32be UIMAGE_MAGIC).length by
        rw [u32be_length]; omega),
      List.getD_append _ _ _ _ (show i < (u32be UIMAGE_MAGIC).length by
        rw [u32be_length]; omega)]
  · rw [getD_peel UIMAGE_MAGIC _ _ (by omega), getD_peel UIMAGE_MAGIC _ _ (by omega),
        getD_peel (buildHcrc args t1) _ _ (by omega),
        getD_peel (buildHcrc args t2) _ _ (by omega),
        getD_peel t1 _ _ (by omega), getD_peel t2 _ _ (by omega)]

/-- Witness for the amended C1 at clock values 0 and 1 and byte 13. -/
theorem claim_C1_amended_witness :
    (buildLegacyScriptImage ⟨[], none, bootScriptName, 0, 0⟩ 0).getD 13 0 =
      (buildLegacyScriptImage ⟨[], none, bootScriptName, 0, 0⟩ 1).getD 13 0 :=
  (claim_C1_amended ⟨[], none, bootScriptName, 0, 0⟩ 0 1 13 (Or.inr (by norm_num))).2.1

theorem crcFold_append (c : Nat) (l₁ l₂ : Bytes) :
    List.foldl crc32Update c (l₁ ++ l₂) =
      List.foldl crc32Update (List.foldl crc32Update c l₁) l₂ := by
  rw [List.foldl_append]

set_option maxRecDepth 20000 in
/-- Counterexample to claim C5 as stated: a 64-byte buffer with correct
magic, dataSize 0 (so the payload area is shorter than 8 bytes) and
both stored CRCs disagreeing with the recomputed ones makes the parser
fail with MissingWrapper but raise ONE warning signal, not zero — the
checksum comparison runs before the wrapper-size check. -/
theorem claim_C5_counterexample :
    parseLegacyUImage ([39, 5, 25, 86] ++ List.replicate 20 0 ++ [0, 0, 0, 1] ++ List.replicate 36 0 : Bytes) =
        (Except.error ParseError.missingWrapper, 1) ∧
      crc32 ((([39, 5, 25, 86] ++ List.replicate 20 0 ++ [0, 0, 0, 1] ++ List.replicate 36 0 : Bytes).drop 64).take
          (readU32BE ([39, 5, 25, 86] ++ List.replicate 20 0 ++ [0, 0, 0, 1] ++ List.replicate 36 0 : Bytes) 12)) CRC_SEED ≠
        readU32BE ([39, 5, 25, 86] ++ List.replicate 20 0 ++ [0, 0, 0, 1] ++ List.replicate 36 0 : Bytes) 24 ∧
      crc32 (writeU32BE (([39, 5, 25, 86] ++ List.replicate 20 0 ++ [0, 0, 0, 1] ++ List.replicate 36 0 : Bytes).take 64) 4 0)
          CRC_SEED ≠
        readU32BE ([39, 5, 25, 86] ++ List.replicate 20 0 ++ [0, 0, 0, 1] ++ List.replicate 36 0 : Bytes) 4 := by
  refine ⟨by decide, by decide, ?_⟩
  rw [show writeU32BE (([39, 5, 25, 86] ++ List.replicate 20 0 ++ [0, 0, 0, 1] ++ List.replicate 36 0 : Bytes).take 64) 4 0 =
        [39, 5, 25, 86, 0, 0, 0, 0, 0, 0, 0, 0, 0, 0, 0, 0, 0, 0, 0, 0, 0, 0, 0, 0, 0, 0, 0, 1, 0, 0, 0, 0] ++ (List.replicate 32 0) from by decide]
  unfold crc32
  rw [crcFold_append,
      show List.foldl crc32Update (CRC_SEED % 2 ^ 32)
        [39, 5, 25, 86, 0, 0, 0, 0, 0, 0, 0, 0, 0, 0, 0, 0, 0, 0, 0, 0, 0, 0, 0, 0, 0, 0, 0, 1, 0, 0, 0, 0] = 2032706928 from by decide,
      show List.foldl crc32Update 2032706928 (List.replicate 32 0) = 1286011893 from by decide]
  decide

/-- Claim C5 as amended: a parse aborting with TooSmall, BadMagic or
PayloadOverrun emits no checksum warning (those checks precede the
checksum comparison), but the MissingWrapper check runs after it: a
parse that fails with MissingWrapper while either stored CRC disagrees
with the recomputed one raises one warning signal, not zero. -/
theorem claim_C5_amended (buf : Bytes) :
    (∀ e : ParseError, e ≠ ParseError.missingWrapper →
        (parseLegacyUImage buf).1 = Except.error e → (parseLegacyUImage buf).2 = 0) ∧
      ((parseLegacyUImage buf).1 = Except.error ParseError.missingWrapper →
        (crc32 ((buf.drop 64).take (readU32BE buf 12)) CRC_SEED ≠ readU32BE buf 24 ∨
            crc32 (writeU32BE (buf.take 64) 4 0) CRC_SEED ≠ readU32BE buf 4) →
        (parseLegacyUImage buf).2 = 1) := by
  by_cases h1 : buf.length < 64
  · have hp : parseLegacyUImage buf = (Except.error ParseError.tooSmall, 0) := by
      unfold parseLegacyUImage
      rw [if_pos (show buf.length < HEADER_SIZE from h1)]
    rw [hp]
    exact ⟨fun _ _ _ => rfl, fun hx => absurd hx (by simp)⟩
  · rcases ne_or_eq (readU32BE buf 0) UIMAGE_MAGIC with h2 | h2
    · have hp : parseLegacyUImage buf = (Except.error ParseError.badMagic, 0) := by
        simp only [parseLegacyUImage, HEADER_SIZE]
        rw [if_neg h1, if_pos h2]
      rw [hp]
      exact ⟨fun _ _ _ => rfl, fun hx => absurd hx (by simp)⟩
    · by_cases h3 : buf.length < 64 + readU32BE buf 12
      · have hp : parseLegacyUImage buf = (Except.error ParseError.payloadOverrun, 0) := by
          simp only [parseLegacyUImage, HEADER_SIZE]
          rw [if_neg h1, if_neg (show ¬ (readU32BE buf 0 ≠ UIMAGE_MAGIC) from fun hx => hx h2),
              if_pos (show 64 + readU32BE buf 12 > buf.length from h3)]
        rw [hp]
        exact ⟨fun _ _ _ => rfl, fun hx => absurd hx (by simp)⟩
      · have hplen : ((buf.drop 64).take (readU32BE buf 12)).length = readU32BE buf 12 := by
          simp
          omega
        by_cases h4 : readU32BE buf 12 < 8
        · have hp : parseLegacyUImage buf = (Except.error ParseError.missingWrapper,
              if crc32 ((buf.drop 64).take (readU32BE buf 12)) CRC_SEED ≠ readU32BE buf 24 ∨
                  crc32 (writeU32BE (buf.take 64) 4 0) CRC_SEED ≠ readU32BE buf 4
                then 1 else 0) := by
            simp only [parseLegacyUImage, HEADER_SIZE]
            rw [if_neg h1, if_neg (show ¬ (readU32BE buf 0 ≠ UIMAGE_MAGIC) from fun hx => hx h2),
                if_neg (show ¬ (64 + readU32BE buf 12 > buf.length) from h3), hplen,
                if_pos h4]
          rw [hp]
          refine ⟨fun e he hx => absurd (by simpa using hx.symm) he, fun _ hc => if_pos hc⟩
        · have hp : (parseLegacyUImage buf).1.isOk = true := by
            simp only [parseLegacyUImage, HEADER_SIZE]
            rw [if_neg h1, if_neg (show ¬ (readU32BE buf 0 ≠ UIMAGE_MAGIC) from fun hx => hx h2),
                if_neg (show ¬ (64 + readU32BE buf 12 > buf.length) from h3), hplen,
                if_neg h4]
            rfl
          have hne : ∀ e : ParseError, ¬ ((parseLegacyUImage buf).1 = Except.error e) := by
            intro e hx
            rw [hx] at hp
            simp [Except.isOk, Except.toBool] at hp
          exact ⟨fun e _ hx => absurd hx (hne e), fun hx => absurd hx (hne _)⟩

set_option maxRecDepth 20000 in
/-- Witness for the amended C5: the counterexample buffer fails with
MissingWrapper while its data CRC mismatches, and indeed one warning is
raised. -/
theorem claim_C5_amended_witness :
    (parseLegacyUImage ([39, 5, 25, 86] ++ List.replicate 20 0 ++ [0, 0, 0, 1] ++ List.replicate 36 0 : Bytes)).2 = 1 :=
  (claim_C5_amended ([39, 5, 25, 86] ++ List.replicate 20 0 ++ [0, 0, 0, 1] ++ List.replicate 36 0 : Bytes)).2 (by decide) (Or.inl (by decide))


/-- Claim C8: a name whose encoding exceeds 32 bytes is written as
exactly its first 32 bytes — the field is completely filled, no NUL
padding remains — and decoding the field yields the truncated, NUL-trimmed
(and whitespace-trimmed) value, which is never the original name. -/
theorem claim_C8_name_truncation (name : Bytes) (h : 32 < name.length) :
    encodeName name = name.take 32 ∧
      (encodeName name).length = 32 ∧
      decodeName (encodeName name) =
        trimBytes ((name.take 32).takeWhile (fun b => b ≠ 0)) ∧
      decodeName (encodeName name) ≠ name := by
  have ht : (name.take 32).length = 32 := by
    simp
    omega
  have he : encodeName name = name.take 32 := by
    simp only [encodeName]
    rw [ht]
    simp
  refine ⟨he, by rw [he]; exact ht, by rw [he]; rfl, ?_⟩
  have hlen : (decodeName (encodeName name)).length ≤ 32 := by
    rw [he]
    unfold decodeName trimBytes
    rw [List.length_reverse]
    refine le_trans ((List.dropWhile_sublist _).length_le) ?_
    rw [List.length_reverse]
    refine le_trans ((List.dropWhile_sublist _).length_le) ?_
    refine le_trans ((List.takeWhile_sublist _).length_le) ?_
    exact le_of_eq ht
  intro hx
  rw [hx] at hlen
  omega

/-- Witness for C8 at a 33-byte name. -/
theorem claim_C8_name_truncation_witness :
    encodeName (List.replicate 33 97) = (List.replicate 33 97).take 32 ∧
      decodeName (encodeName (List.replicate 33 97)) ≠ List.replicate 33 97 := by
  have h := claim_C8_name_truncation (List.replicate 33 97) (by decide)
  exact ⟨h.1, h.2.2.2⟩

theorem isBytes_getD_lt (l : Bytes) (hb : IsBytes l) (i : Nat) : l.getD i 0 < 256 := by
  rcases Nat.lt_or_ge i l.length with h | h
  · rw [List.getD_eq_getElem _ _ h]
    exact hb _ (List.getElem_mem h)
  · rw [List.getD_eq_default _ _ h]
    omega

/-- Full evaluation of a structurally successful parse. -/
theorem parse_success_eval (buf : Bytes) (h1 : ¬ buf.length < 64)
    (h2 : readU32BE buf 0 = UIMAGE_MAGIC) (h3 : 64 + readU32BE buf 12 ≤ buf.length)
    (h4 : 8 ≤ readU32BE buf 12) :
    parseLegacyUImage buf =
      (Except.ok
        (({ magic := readU32BE buf 0,
            hcrc := readU32BE buf 4,
            timestamp := readU32BE buf 8,
            size := readU32BE buf 12,
            loadAddr := readU32BE buf 16,
            entryPoint := readU32BE buf 20,
            dcrc := readU32BE buf 24,
            os := buf.getD 28 0,
            arch := buf.getD 29 0,
            type := buf.getD 30 0,
            comp := buf.getD 31 0,
            name := decodeName ((buf.drop 32).take 32) } : UImageHeader),
          ((buf.drop 64).take (readU32BE buf 12)).drop 8),
        if crc32 ((buf.drop 64).take (readU32BE buf 12)) CRC_SEED ≠ readU32BE buf 24 ∨
            crc32 (writeU32BE (buf.take 64) 4 0) CRC_SEED ≠ readU32BE buf 4
          then 1 else 0) := by
  have hplen : ((buf.drop 64).take (readU32BE buf 12)).length = readU32BE buf 12 := by
    simp
    omega
  simp only [parseLegacyUImage, HEADER_SIZE]
  rw [if_neg h1, if_neg (show ¬ (readU32BE buf 0 ≠ UIMAGE_MAGIC) from fun hx => hx h2),
      if_neg (show ¬ (64 + readU32BE buf 12 > buf.length) from by omega), hplen,
      if_neg (show ¬ (readU32BE buf 12 < 8) from by omega), h2]

/-- A big-endian u32 read changes whenever exactly one of its four
bytes changes. -/
theorem readU32BE_ne_of_byte_flip (m m' : Bytes) (off j : Nat)
    (hj1 : off ≤ j) (hj2 : j < off + 4)
    (hlt : ∀ i, off ≤ i → i < off + 4 → m.getD i 0 < 256)
    (hlt' : ∀ i, off ≤ i → i < off + 4 → m'.getD i 0 < 256)
    (heq : ∀ i, off ≤ i → i < off + 4 → i ≠ j → m'.getD i 0 = m.getD i 0)
    (hne : m'.getD j 0 ≠ m.getD j 0) :
    readU32BE m' off ≠ readU32BE m off := by
  rw [readU32BE_eq_sum _ _ (hlt _ (by omega) (by omega)) (hlt _ (by omega) (by omega))
        (hlt _ (by omega) (by omega)) (hlt _ (by omega) (by omega)),
      readU32BE_eq_sum _ _ (hlt' _ (by omega) (by omega)) (hlt' _ (by omega) (by omega))
        (hlt' _ (by omega) (by omega)) (hlt' _ (by omega) (by omega))]
  have b0 := hlt off (by omega) (by omega)
  have b1 := hlt (off + 1) (by omega) (by omega)
  have b2 := hlt (off + 2) (by omega) (by omega)
  have b3 := hlt (off + 3) (by omega) (by omega)
  have b0' := hlt' off (by omega) (by omega)
  have b1' := hlt' (off + 1) (by omega) (by omega)
  have b2' := hlt' (off + 2) (by omega) (by omega)
  have b3' := hlt' (off + 3) (by omega) (by omega)
  have hj : j = off ∨ j = off + 1 ∨ j = off + 2 ∨ j = off + 3 := by omega
  rcases hj with hj | hj | hj | hj
  · rw [hj] at hne
    have e1 := heq (off + 1) (by omega) (by omega) (by omega)
    have e2 := heq (off + 2) (by omega) (by omega) (by omega)
    have e3 := heq (off + 3) (by omega) (by omega) (by omega)
    omega
  · rw [hj] at hne
    have e1 := heq off (by omega) (by omega) (by omega)
    have e2 := heq (off + 2) (by omega) (by omega) (by omega)
    have e3 := heq (off + 3) (by omega) (by omega) (by omega)
    omega
  · rw [hj] at hne
    have e1 := heq off (by omega) (by omega) (by omega)
    have e2 := heq (off + 1) (by omega) (by omega) (by omega)
    have e3 := heq (off + 3) (by omega) (by omega) (by omega)
    omega
  · rw [hj] at hne
    have e1 := heq off (by omega) (by omega) (by omega)
    have e2 := heq (off + 1) (by omega) (by omega) (by omega)
    have e3 := heq (off + 2) (by omega) (by omega) (by omega)
    omega

/-- Claim C4: flipping one bit of the stored dataCrc field (byte index
k in 24..27, bit b) of a structurally valid, checksum-valid buffer
leaves parsing successful with the same script text, raises exactly one
warning signal (the single warning branch fires once even though both
the data CRC and the header CRC comparisons then disagree), and indeed
both stored CRCs then differ from the recomputed ones. -/
theorem claim_C4_dcrc_bitflip (buf buf' : Bytes) (k b : Nat)
    (hbytes : IsBytes buf)
    (hk1 : 24 ≤ k) (hk2 : k ≤ 27) (hb : b < 8)
    (hlen : 64 ≤ buf.length)
    (hmagic : readU32BE buf 0 = UIMAGE_MAGIC)
    (hfit : 64 + readU32BE buf 12 ≤ buf.length)
    (hwrap : 8 ≤ readU32BE buf 12)
    (hdcrc : crc32 ((buf.drop 64).take (readU32BE buf 12)) CRC_SEED = readU32BE buf 24)
    (hhcrc : crc32 (writeU32BE (buf.take 64) 4 0) CRC_SEED = readU32BE buf 4)
    (hflip : buf' = buf.take k ++ (buf.getD k 0 ^^^ 1 <<< b) :: buf.drop (k + 1)) :
    (parseLegacyUImage buf').1.map (fun r => r.2) =
        (parseLegacyUImage buf).1.map (fun r => r.2) ∧
      (parseLegacyUImage buf').1.isOk = true ∧
      (parseLegacyUImage buf').2 = 1 ∧
      crc32 ((buf'.drop 64).take (readU32BE buf' 12)) CRC_SEED ≠ readU32BE buf' 24 ∧
      crc32 (writeU32BE (buf'.take 64) 4 0) CRC_SEED ≠ readU32BE buf' 4 := by
  have hklen : k < buf.length := by omega
  have hPlen : (buf.take k).length = k := by
    simp
    omega
  have hsplit : buf = buf.take k ++ buf.getD k 0 :: buf.drop (k + 1) := by
    conv_lhs => rw [← List.take_append_drop k buf]
    rw [List.drop_eq_getElem_cons hklen, ← List.getD_eq_getElem _ _ hklen]
  have hx : buf.getD k 0 < 256 := isBytes_getD_lt buf hbytes k
  have hshift : (1 <<< b) < 256 := by
    rw [Nat.shiftLeft_eq, one_mul]
    have h7 : (2 : Nat) ^ b ≤ 2 ^ 7 := Nat.pow_le_pow_right (by omega) (by omega)
    omega
  have hx' : buf.getD k 0 ^^^ 1 <<< b < 256 := by
    have := Nat.xor_lt_two_pow (show buf.getD k 0 < 2 ^ 8 by omega)
      (show 1 <<< b < 2 ^ 8 by omega)
    omega
  have hxne : buf.getD k 0 ^^^ 1 <<< b ≠ buf.getD k 0 := by
    intro he
    have hc := congrArg (fun t => buf.getD k 0 ^^^ t) he
    simp only [] at hc
    rw [← Nat.xor_assoc, Nat.xor_self, Nat.zero_xor] at hc
    rw [Nat.shiftLeft_eq, one_mul] at hc
    have := Nat.two_pow_pos b
    omega
  have hbytes' : IsBytes buf' := by
    rw [hflip]
    intro c hc
    rcases List.mem_append.mp hc with hc | hc
    · exact hbytes _ (List.mem_of_mem_take hc)
    · rcases List.mem_cons.mp hc with hc | hc
      · rw [hc]
        exact hx'
      · exact hbytes _ (List.mem_of_mem_drop hc)
  have hlen' : buf'.length = buf.length := by
    rw [hflip]
    conv_rhs => rw [hsplit]
    simp
  have hr : ∀ o, o + 4 ≤ k → readU32BE buf' o = readU32BE buf o := by
    intro o ho
    rw [hflip, readU32BE_append_left _ _ _ (by rw [hPlen]; omega)]
    conv_rhs => rw [hsplit]
    rw [readU32BE_append_left _ _ _ (by rw [hPlen]; omega)]
  have hr0 : readU32BE buf' 0 = readU32BE buf 0 := hr 0 (by omega)
  have hr4 : readU32BE buf' 4 = readU32BE buf 4 := hr 4 (by omega)
  have hr12 : readU32BE buf' 12 = readU32BE buf 12 := hr 12 (by omega)
  have hgetk : buf'.getD k 0 = buf.getD k 0 ^^^ 1 <<< b := by
    rw [hflip, List.getD_append_right _ _ _ _ (le_of_eq hPlen), hPlen, Nat.sub_self]
    rfl
  have hgeti : ∀ i, i ≠ k → buf'.getD i 0 = buf.getD i 0 := by
    intro i hi
    rcases Nat.lt_or_ge i k with h | h
    · rw [hflip, List.getD_append _ _ _ _ (by rw [hPlen]; omega)]
      conv_rhs => rw [hsplit]
      rw [List.getD_append _ _ _ _ (by rw [hPlen]; omega)]
    · rw [hflip, List.getD_append_right _ _ _ _ (by rw [hPlen]; omega)]
      conv_rhs => rw [hsplit]
      rw [List.getD_append_right _ _ _ _ (by rw [hPlen]; omega), hPlen]
      have e : i - k = (i - k - 1) + 1 := by omega
      rw [e, List.getD_cons_succ, List.getD_cons_succ]
  have hd24 : readU32BE buf' 24 ≠ readU32BE buf 24 := by
    apply readU32BE_ne_of_byte_flip buf buf' 24 k (by omega) (by omega)
      (fun i _ _ => isBytes_getD_lt buf hbytes i)
      (fun i _ _ => isBytes_getD_lt buf' hbytes' i)
      (fun i _ _ hik => hgeti i hik)
    rw [hgetk]
    exact hxne
  have hdrop64 : buf'.drop 64 = buf.drop 64 := by
    rw [hflip]
    conv_rhs => rw [hsplit]
    rw [drop_append_ge _ _ _ (by rw [hPlen]; omega),
        drop_append_ge _ _ _ (by rw [hPlen]; omega), hPlen]
    have e : 64 - k = (63 - k) + 1 := by omega
    rw [e, List.drop_succ_cons, List.drop_succ_cons]
  have hpay : (buf'.drop 64).take (readU32BE buf' 12) =
      (buf.drop 64).take (readU32BE buf 12) := by
    rw [hdrop64, hr12]
  have htake64 : buf.take 64 = buf.take k ++ buf.getD k 0 :: (buf.drop (k + 1)).take (63 - k) := by
    conv_lhs => rw [hsplit]
    rw [List.take_append_eq_append_take, List.take_of_length_le (by rw [hPlen]; omega), hPlen]
    have e : 64 - k = (63 - k) + 1 := by omega
    rw [e, List.take_succ_cons]
  have htake64' : buf'.take 64 =
      buf.take k ++ (buf.getD k 0 ^^^ 1 <<< b) :: (buf.drop (k + 1)).take (63 - k) := by
    rw [hflip, List.take_append_eq_append_take,
        List.take_of_length_le (by rw [hPlen]; omega), hPlen]
    have e : 64 - k = (63 - k) + 1 := by omega
    rw [e, List.take_succ_cons]
  have hwrite : ∀ y : Nat,
      writeU32BE (buf.take k ++ y :: (buf.drop (k + 1)).take (63 - k)) 4 0 =
        ((buf.take k).take 4 ++ (u32be 0 ++ (buf.take k).drop 8)) ++
          y :: (buf.drop (k + 1)).take (63 - k) := by
    intro y
    unfold writeU32BE
    rw [List.take_append_of_le_length (by rw [hPlen]; omega),
        List.drop_append_of_le_length (by rw [hPlen]; omega)]
    simp [List.append_assoc]
  have hhne : crc32 (writeU32BE (buf'.take 64) 4 0) CRC_SEED ≠
      crc32 (writeU32BE (buf.take 64) 4 0) CRC_SEED := by
    rw [htake64, htake64', hwrite, hwrite]
    exact crc32_flip_ne _ _ _ _ hx' hx hxne
  have hc5 : crc32 (writeU32BE (buf'.take 64) 4 0) CRC_SEED ≠ readU32BE buf' 4 := by
    rw [hr4, ← hhcrc]
    exact hhne
  have hc4 : crc32 ((buf'.drop 64).take (readU32BE buf' 12)) CRC_SEED ≠ readU32BE buf' 24 := by
    rw [hpay, hdcrc]
    exact fun he => hd24 he.symm
  have hmagic' : readU32BE buf' 0 = UIMAGE_MAGIC := by rw [hr0]; exact hmagic
  have hfit' : 64 + readU32BE buf' 12 ≤ buf'.length := by rw [hr12, hlen']; exact hfit
  have hwrap' : 8 ≤ readU32BE buf' 12 := by rw [hr12]; exact hwrap
  have hp := parse_success_eval buf (by omega) hmagic hfit hwrap
  have hp' := parse_success_eval buf' (by rw [hlen']; omega) hmagic' hfit' hwrap'
  refine ⟨?_, ?_, ?_, hc4, hc5⟩
  · rw [hp, hp']
    simp only [Except.map]
    rw [hpay]
  · rw [hp']
    rfl
  · rw [hp']
    exact if_pos (Or.inl hc4)

theorem isBytes_append (l₁ l₂ : Bytes) (h1 : IsBytes l₁) (h2 : IsBytes l₂) :
    IsBytes (l₁ ++ l₂) := by
  intro c hc
  rcases List.mem_append.mp hc with h | h
  · exact h1 _ h
  · exact h2 _ h

theorem isBytes_u32be (v : Nat) : IsBytes (u32be v) := by
  intro c hc
  simp [u32be] at hc
  rcases hc with h | h | h | h <;>
    · rw [h, and_255_eq_mod]
      exact Nat.mod_lt _ (by norm_num)

theorem isBytes_encodeName (nm : Bytes) (hn : IsBytes nm) : IsBytes (encodeName nm) := by
  intro c hc
  simp only [encodeName] at hc
  rcases List.mem_append.mp hc with h | h
  · exact hn _ (List.mem_of_mem_take h)
  · rw [List.eq_of_mem_replicate h]
    norm_num

/-- Builder output is a byte buffer whenever the script bytes and the
merged name bytes are. -/
theorem build_isBytes (args : BuildArgs) (now : Nat) (hs : IsBytes args.script)
    (hn : IsBytes (mergedName args)) : IsBytes (buildLegacyScriptImage args now) := by
  have henum : IsBytes [mergedOs args &&& 255, mergedArch args &&& 255,
      mergedType args &&& 255, mergedComp args &&& 255] := by
    intro c hc
    simp at hc
    rcases hc with h | h | h | h <;>
      · rw [h, and_255_eq_mod]
        exact Nat.mod_lt _ (by norm_num)
  have hpay : IsBytes (buildPayload args) :=
    isBytes_append _ _ (isBytes_u32be _) (isBytes_append _ _ (isBytes_u32be _) hs)
  unfold buildLegacyScriptImage buildHeaderBytes
  exact isBytes_append _ _
    (isBytes_append _ _ (isBytes_u32be _)
      (isBytes_append _ _ (isBytes_u32be _)
        (isBytes_append _ _ (isBytes_u32be _)
          (isBytes_append _ _ (isBytes_u32be _)
            (isBytes_append _ _ (isBytes_u32be _)
              (isBytes_append _ _ (isBytes_u32be _)
                (isBytes_append _ _ (isBytes_u32be _)
                  (isBytes_append _ _ henum (isBytes_encodeName _ hn)))))))))
    hpay

set_option maxRecDepth 40000 in
/-- Witness for C4: flip bit 0 of byte 24 (the top byte of the stored
dataCrc) of a freshly built one-byte-script container. -/
theorem claim_C4_dcrc_bitflip_witness :
    (parseLegacyUImage
        ((buildLegacyScriptImage ⟨[120], none, bootScriptName, 0, 0⟩ 7).take 24 ++
          ((buildLegacyScriptImage ⟨[120], none, bootScriptName, 0, 0⟩ 7).getD 24 0 ^^^
              1 <<< 0) ::
            (buildLegacyScriptImage ⟨[120], none, bootScriptName, 0, 0⟩ 7).drop 25)).2 = 1 := by
  have h := claim_C4_dcrc_bitflip (buildLegacyScriptImage ⟨[120], none, bootScriptName, 0, 0⟩ 7)
    ((buildLegacyScriptImage ⟨[120], none, bootScriptName, 0, 0⟩ 7).take 24 ++
      ((buildLegacyScriptImage ⟨[120], none, bootScriptName, 0, 0⟩ 7).getD 24 0 ^^^ 1 <<< 0) ::
        (buildLegacyScriptImage ⟨[120], none, bootScriptName, 0, 0⟩ 7).drop 25)
    24 0
    (build_isBytes _ _ (by decide) (by decide))
    (by norm_num) (by norm_num) (by norm_num)
    (by rw [buildLegacyScriptImage_length]; norm_num)
    (build_read_magic _ _)
    (by rw [build_read_size, buildLegacyScriptImage_length]; norm_num)
    (by rw [build_read_size]; norm_num)
    (by rw [build_drop_64, build_read_size, build_read_dcrc]; decide)
    (by rw [build_take_64, zero_hcrc_header, build_read_hcrc]; rfl)
    rfl
  exact h.2.2.1

end BootScr
